import Mathlib

/-!
# Verification of the stock-predictor data pipeline

Shallow embedding of the feature/label preparation and evaluation pipeline of
the repository (`stock_predictor/data.py`, `stock_predictor/evaluate.py`,
`projects/stock_predictor/src/stock_predictor/main.py`).

Real-valued quantities are modelled with `ℚ`; IEEE-754 non-numeric results
(NaN produced by `0/0`, by `np.mean` of an empty array, and by the pandas
rolling warm-up) are modelled with `Option ℚ` where `none` stands for a
non-numeric (NaN) cell.  Python slice semantics (negative endpoints counting
from the end, clamping to the list bounds) are modelled by `pyIdx`/`pySlice`.
-/

namespace StockPredictor

/-- Python `int()` truncation toward zero of a rational.  The source computes
`int(n * train_ratio)` on a nonnegative float, where truncation coincides with
the floor; the toward-zero semantics of `int` is kept for faithfulness. -/
def pyTrunc (q : ℚ) : ℤ := if q < 0 then -⌊-q⌋ else ⌊q⌋

/-- Normalized index of a Python slice endpoint `i` for a list of length
`len`: a negative endpoint counts from the end and endpoints are clamped to
`[0, len]`, exactly as in CPython slicing. -/
def pyIdx (len : ℕ) (i : ℤ) : ℕ :=
  if i < 0 then (len + i).toNat else min i.toNat len

/-- Python slice `xs[a:b]`. -/
def pySlice {α : Type} (xs : List α) (a b : ℤ) : List α :=
  (xs.take (pyIdx xs.length b)).drop (pyIdx xs.length a)

/-! ## Normalizer: sklearn `MinMaxScaler`

`MinMaxScaler.fit` records per-column `data_min_`/`data_max_` over the rows it
is given; it raises only when given zero samples (`check_array`), and a
zero-range column is not an error: `_handle_zeros_in_scale` replaces the zero
range by 1 in the transform denominator.  `transform` maps each value `v` of
column `j` to `(v - min_j) / handled(max_j - min_j)` (default feature range
`(0, 1)`), with no clamping. -/

/-- sklearn `_handle_zeros_in_scale`: a zero column range is replaced by 1 so
that the transform divides by a nonzero number. -/
def handleZeros (r : ℚ) : ℚ := if r = 0 then 1 else r

/-- `MinMaxScaler.transform` of a single value given that column's fitted
bounds `b = (data_min_, data_max_)`. -/
def transformVal (b : ℚ × ℚ) (v : ℚ) : ℚ := (v - b.1) / handleZeros (b.2 - b.1)

/-- `MinMaxScaler.transform` of one row, column by column against the fitted
per-column bounds. -/
def transformRow (s : List (ℚ × ℚ)) (row : List ℚ) : List ℚ :=
  (s.zip row).map (fun p => transformVal p.1 p.2)

/-- Minimum of column `j` over `rows`, folded from the initial value `v0`
(the first row's entry). -/
def colMin (rows : List (List ℚ)) (j : ℕ) (v0 : ℚ) : ℚ :=
  (rows.map (fun r => r.getD j 0)).foldl min v0

/-- Maximum of column `j` over `rows`, folded from the initial value `v0`. -/
def colMax (rows : List (List ℚ)) (j : ℕ) (v0 : ℚ) : ℚ :=
  (rows.map (fun r => r.getD j 0)).foldl max v0

/-- `MinMaxScaler.fit`: per-column `(data_min_, data_max_)` over the supplied
rows.  It fails only on an empty input (sklearn `check_array` raises on zero
samples); a degenerate zero-range column is recorded as `min = max`, not
rejected. -/
def fitScaler (rows : List (List ℚ)) : Except String (List (ℚ × ℚ)) :=
  match rows with
  | [] => .error "MinMaxScaler.fit: found array with 0 samples"
  | r :: rs =>
      .ok ((List.range r.length).map
        (fun j => (colMin rs j (r.getD j 0), colMax rs j (r.getD j 0))))

/-- `scaler.transform(data)`: the whole matrix transformed row by row with one
fitted scaler. -/
def scaledMatrix (s : List (ℚ × ℚ)) (data : List (List ℚ)) : List (List ℚ) :=
  data.map (transformRow s)

/-- The inverse transform used by `main.py` to report predictions in price
units: `u * (data_max_[0] - data_min_[0]) + data_min_[0]`, here for one value
against one column's bounds. -/
def inverseTransformVal (b : ℚ × ℚ) (u : ℚ) : ℚ := u * (b.2 - b.1) + b.1

/-! ## Windower

`for i in range(lookback, len(data_scaled)): X.append(data_scaled[i-lookback:i]);
y.append(data_scaled[i, 0])`, reindexed by `j = i - lookback`. -/

/-- The input windows: window `j` is rows `[j, j + L)` of the scaled matrix. -/
def makeWindows (m : List (List ℚ)) (L : ℕ) : List (List (List ℚ)) :=
  (List.range (m.length - L)).map (fun j => (m.drop j).take L)

/-- The targets: target `j` is column 0 of row `L + j` of the scaled matrix. -/
def makeTargets (m : List (List ℚ)) (L : ℕ) : List ℚ :=
  (List.range (m.length - L)).map (fun j => (m.getD (L + j) []).getD 0 0)

/-! ## Splitter boundaries -/

/-- `train_end = int(n * train_ratio)`. -/
def trainEnd (n : ℕ) (t : ℚ) : ℤ := pyTrunc (n * t)

/-- `val_end = int(n * (train_ratio + val_ratio))`. -/
def valEnd (n : ℕ) (t v : ℚ) : ℤ := pyTrunc (n * (t + v))

/-- The structure returned by `prepare_data`: the six data arrays plus the
fitted scaler. -/
structure PreparedData where
  X_train : List (List (List ℚ))
  y_train : List ℚ
  X_val : List (List (List ℚ))
  y_val : List ℚ
  X_test : List (List (List ℚ))
  y_test : List ℚ
  scaler : List (ℚ × ℚ)

/-- The dictionary built by `prepare_data`'s return statement, given the one
fitted scaler: all six arrays are lookback-shifted Python slices of the
windows/targets built over `scaledMatrix scaler data`, i.e. over the whole
series transformed with that single scaler. -/
def assembled (data : List (List ℚ)) (lookback : ℕ) (train_ratio val_ratio : ℚ)
    (scaler : List (ℚ × ℚ)) : PreparedData :=
  { X_train := pySlice (makeWindows (scaledMatrix scaler data) lookback) 0
      (trainEnd data.length train_ratio - lookback),
    y_train := pySlice (makeTargets (scaledMatrix scaler data) lookback) 0
      (trainEnd data.length train_ratio - lookback),
    X_val := pySlice (makeWindows (scaledMatrix scaler data) lookback)
      (trainEnd data.length train_ratio - lookback)
      (valEnd data.length train_ratio val_ratio - lookback),
    y_val := pySlice (makeTargets (scaledMatrix scaler data) lookback)
      (trainEnd data.length train_ratio - lookback)
      (valEnd data.length train_ratio val_ratio - lookback),
    X_test := pySlice (makeWindows (scaledMatrix scaler data) lookback)
      (valEnd data.length train_ratio val_ratio - lookback)
      ((makeWindows (scaledMatrix scaler data) lookback).length : ℤ),
    y_test := pySlice (makeTargets (scaledMatrix scaler data) lookback)
      (valEnd data.length train_ratio val_ratio - lookback)
      ((makeTargets (scaledMatrix scaler data) lookback).length : ℤ),
    scaler := scaler }

/-- `prepare_data` from `stock_predictor/data.py`, starting from the
FeatureMatrix `data` (the 10-column numeric matrix left after indicator
computation and `dropna`; the network download is an external collaborator).
It computes the chronological boundaries, fits the scaler on `data[:train_end]`
only, transforms all rows with that one scaler, builds the windows and targets,
and slices them with the lookback-shifted boundaries using Python slice
semantics. -/
def prepare_data (data : List (List ℚ)) (lookback : ℕ) (train_ratio val_ratio : ℚ) :
    Except String PreparedData :=
  match fitScaler (pySlice data 0 (trainEnd data.length train_ratio)) with
  | .error e => .error e
  | .ok scaler => .ok (assembled data lookback train_ratio val_ratio scaler)

/-! ## Indicator engine: the RSI path of `add_technical_indicators`

`delta = close.diff()` is NaN at row 0; `delta.where(delta > 0, 0.0)` turns
both non-positive deltas and the row-0 NaN into `0.0`, so the gain/loss series
are plain numbers everywhere.  `rolling(window=14).mean()` is NaN before row
13.  `rs = avg_gain / avg_loss` follows IEEE semantics: positive/0 = +inf so
`100 - 100/(1 + rs)` evaluates to 100, while 0/0 = NaN propagates. -/

/-- The positive part of the daily close delta at row `i`
(`delta.where(delta > 0, 0.0)`; row 0, where `diff` is NaN, becomes 0). -/
def gain (close : List ℚ) (i : ℕ) : ℚ :=
  if i = 0 then 0
  else
    let d := close.getD i 0 - close.getD (i - 1) 0
    if 0 < d then d else 0

/-- The magnitude of the negative part of the daily close delta at row `i`
(`(-delta).where(delta < 0, 0.0)`; row 0 becomes 0). -/
def loss (close : List ℚ) (i : ℕ) : ℚ :=
  if i = 0 then 0
  else
    let d := close.getD i 0 - close.getD (i - 1) 0
    if d < 0 then -d else 0

/-- `gain.rolling(window=14).mean()` at row `i`: NaN (`none`) during the
warm-up rows `0..12`, otherwise the mean of the last 14 gains. -/
def avgGain (close : List ℚ) (i : ℕ) : Option ℚ :=
  if i < 13 then none
  else some ((((List.range 14).map (fun k => gain close (i - k))).sum) / 14)

/-- `loss.rolling(window=14).mean()` at row `i`. -/
def avgLoss (close : List ℚ) (i : ℕ) : Option ℚ :=
  if i < 13 then none
  else some ((((List.range 14).map (fun k => loss close (i - k))).sum) / 14)

/-- `RSI_14` at row `i`: `100 - 100 / (1 + avg_gain / avg_loss)` under IEEE
semantics.  With `avg_loss = 0` and `avg_gain > 0` the ratio is `+inf` and the
expression evaluates to `100`; with `avg_gain = avg_loss = 0` the ratio is
`0/0 = NaN`, which propagates (`none`). -/
def rsi (close : List ℚ) (i : ℕ) : Option ℚ :=
  match avgGain close i, avgLoss close i with
  | some ag, some al =>
      if al ≠ 0 then some (100 - 100 / (1 + ag / al))
      else if ag ≠ 0 then some 100
      else none
  | _, _ => none

/-! ## Evaluator -/

/-- The elementwise absolute differences `np.abs(y_true[1:] - y_true[:-1])`
computed by `naive_baseline`. -/
def baselineDiffs (y : List ℚ) : List ℚ :=
  (y.zip y.tail).map (fun p => |p.2 - p.1|)

/-- `naive_baseline` from `stock_predictor/evaluate.py`:
`float(np.mean(np.abs(y_true[1:] - y_true[:-1])))`.  When the input has fewer
than 2 elements the difference array is empty and `np.mean([])` is NaN,
modelled as `none`; the function raises nothing. -/
def naive_baseline (y : List ℚ) : Option ℚ :=
  if (baselineDiffs y).length = 0 then none
  else some ((baselineDiffs y).sum / ((baselineDiffs y).length : ℚ))

/-- The spec-side formula for the naive baseline, written from the words of
the spec: the mean of the absolute differences between consecutive elements,
`mean(|targets[1:] - targets[:-1]|)`.  Compared against `naive_baseline`. -/
def specNaiveBaseline (y : List ℚ) : ℚ :=
  ((y.tail.zip y).map (fun p => |p.1 - p.2|)).sum / ((y.length - 1 : ℕ) : ℚ)

/-! ## Predicates and concrete inputs used by the theorems -/

/-- Membership in the closed unit interval. -/
def inUnit (x : ℚ) : Prop := 0 ≤ x ∧ x ≤ 1

/-- Every entry of a vector lies in `[0, 1]`. -/
def allInUnit (l : List ℚ) : Prop := ∀ x ∈ l, inUnit x

/-- Every entry of a stack of windows lies in `[0, 1]`. -/
def matrixInUnit (X : List (List (List ℚ))) : Prop :=
  ∀ w ∈ X, ∀ r ∈ w, allInUnit r

/-- The three split sizes of a `prepare_data` result, `none` when the call
failed. -/
def splitLengths (e : Except String PreparedData) : Option (ℕ × ℕ × ℕ) :=
  e.toOption.map (fun pd => (pd.X_train.length, pd.X_val.length, pd.X_test.length))

/-- A 5-row, 1-column FeatureMatrix used as a concrete input. -/
def data5 : List (List ℚ) := [[0], [1], [2], [3], [4]]

/-- `data5` with the last (test-period) row changed. -/
def data5alt : List (List ℚ) := [[0], [1], [2], [3], [9]]

/-- The value of `prepare_data data5 1 (4/5) (1/10)`: `train_end = 4`,
fitted bounds `(0, 3)`, scaled column `[0, 1/3, 2/3, 1, 4/3]`, four windows,
boundary indices `3` and `3` after the lookback shift. -/
def pd5 : PreparedData :=
  { X_train := [[[0]], [[1/3]], [[2/3]]], y_train := [1/3, 2/3, 1],
    X_val := [], y_val := [],
    X_test := [[[1]]], y_test := [4/3],
    scaler := [(0, 3)] }

/-- The value of `prepare_data data5alt 1 (4/5) (1/10)`: same fitted prefix as
`data5`, so the same scaler; only the test entries differ. -/
def pd5alt : PreparedData :=
  { X_train := [[[0]], [[1/3]], [[2/3]]], y_train := [1/3, 2/3, 1],
    X_val := [], y_val := [],
    X_test := [[[1]]], y_test := [3],
    scaler := [(0, 3)] }

/-- The value of `prepare_data data5 1 (7/10) (3/20)`: `train_end = 3`,
`val_end = 4`, fitted bounds `(0, 2)`, scaled column `[0, 1/2, 1, 3/2, 2]`. -/
def pd5b : PreparedData :=
  { X_train := [[[0]], [[1/2]]], y_train := [1/2, 1],
    X_val := [[[1]]], y_val := [3/2],
    X_test := [[[3/2]]], y_test := [2],
    scaler := [(0, 2)] }

/-- A 3-row, 1-column FeatureMatrix, shorter than the lookbacks used with it. -/
def data3 : List (List ℚ) := [[0], [1], [2]]

/-- The value of `prepare_data data3 5 (7/10) (3/20)`: `train_end = 2`, no
windows at all since `lookback = 5 ≥ 3`. -/
def pd3 : PreparedData :=
  { X_train := [], y_train := [], X_val := [], y_val := [],
    X_test := [], y_test := [], scaler := [(0, 1)] }

/-- A 20-row, 1-column FeatureMatrix used to exercise the negative
lookback-shifted boundary. -/
def data20 : List (List ℚ) :=
  [[0], [1], [2], [3], [4], [5], [6], [7], [8], [9],
   [10], [11], [12], [13], [14], [15], [16], [17], [18], [19]]

/-- A flat 14-bar close series: every delta is zero. -/
def closeFlat : List ℚ := [5, 5, 5, 5, 5, 5, 5, 5, 5, 5, 5, 5, 5, 5]

/-- A strictly increasing 14-bar close series: every loss is zero but the
gains are not. -/
def closeInc : List ℚ := [0, 1, 2, 3, 4, 5, 6, 7, 8, 9, 10, 11, 12, 13]

end StockPredictor
namespace StockPredictor

/-! ## General helper lemmas -/

/-- Zipping a replicated constant with one fewer copy of itself pairs the
constant with itself. -/
theorem zip_replicate_self (c : ℚ) :
    ∀ n, (List.replicate (n + 1) c).zip (List.replicate n c) = List.replicate n (c, c) := by
  intro n
  induction n with
  | zero => rfl
  | succ m ih =>
      show ((c :: List.replicate (m + 1) c).zip (c :: List.replicate m c)) = _
      rw [List.zip_cons_cons, ih]
      rfl

/-- Folding `min` over copies of the initial value leaves it unchanged. -/
theorem foldl_min_self_replicate (c : ℚ) :
    ∀ k, (List.replicate k c).foldl min c = c := by
  intro k
  induction k with
  | zero => rfl
  | succ m ih =>
      show (c :: List.replicate m c).foldl min c = c
      rw [List.foldl_cons, min_self]
      exact ih

/-- Folding `max` over copies of the initial value leaves it unchanged. -/
theorem foldl_max_self_replicate (c : ℚ) :
    ∀ k, (List.replicate k c).foldl max c = c := by
  intro k
  induction k with
  | zero => rfl
  | succ m ih =>
      show (c :: List.replicate m c).foldl max c = c
      rw [List.foldl_cons, max_self]
      exact ih

/-- Folding `min` never exceeds the initial value. -/
theorem foldl_min_le_init (l : List ℚ) : ∀ a : ℚ, l.foldl min a ≤ a := by
  induction l with
  | nil => intro a; exact le_refl a
  | cons b l ih =>
      intro a
      calc (b :: l).foldl min a = l.foldl min (min a b) := by rw [List.foldl_cons]
        _ ≤ min a b := ih (min a b)
        _ ≤ a := min_le_left a b

/-- Folding `min` is a lower bound of every list element. -/
theorem foldl_min_le_mem (l : List ℚ) : ∀ (a x : ℚ), x ∈ l → l.foldl min a ≤ x := by
  induction l with
  | nil => intro a x hx; cases hx
  | cons b l ih =>
      intro a x hx
      rw [List.foldl_cons]
      rcases List.mem_cons.1 hx with rfl | hmem
      · calc l.foldl min (min a x) ≤ min a x := foldl_min_le_init l (min a x)
          _ ≤ x := min_le_right a x
      · exact ih (min a b) x hmem

/-- Folding `max` is at least the initial value. -/
theorem le_foldl_max_init (l : List ℚ) : ∀ a : ℚ, a ≤ l.foldl max a := by
  induction l with
  | nil => intro a; exact le_refl a
  | cons b l ih =>
      intro a
      calc a ≤ max a b := le_max_left a b
        _ ≤ l.foldl max (max a b) := ih (max a b)
        _ = (b :: l).foldl max a := by rw [List.foldl_cons]

/-- Folding `max` is an upper bound of every list element. -/
theorem le_foldl_max_mem (l : List ℚ) : ∀ (a x : ℚ), x ∈ l → x ≤ l.foldl max a := by
  induction l with
  | nil => intro a x hx; cases hx
  | cons b l ih =>
      intro a x hx
      rw [List.foldl_cons]
      rcases List.mem_cons.1 hx with rfl | hmem
      · calc x ≤ max a x := le_max_right a x
          _ ≤ l.foldl max (max a x) := le_foldl_max_init l (max a x)
      · exact ih (max a b) x hmem

/-! ## Python slice and windower lemmas -/

/-- A normalized slice endpoint never exceeds the list length. -/
theorem pyIdx_le (len : ℕ) (i : ℤ) : pyIdx len i ≤ len := by
  rw [pyIdx]
  split <;> omega

/-- Normalized slice endpoints are monotone for nonnegative endpoints. -/
theorem pyIdx_mono (len : ℕ) {a b : ℤ} (h : 0 ≤ a) (hab : a ≤ b) :
    pyIdx len a ≤ pyIdx len b := by
  rw [pyIdx, pyIdx, if_neg (by omega), if_neg (by omega)]
  omega

/-- A nonnegative normalized endpoint is at most the endpoint itself. -/
theorem pyIdx_le_toNat (len : ℕ) {a : ℤ} (h : 0 ≤ a) : pyIdx len a ≤ a.toNat := by
  rw [pyIdx, if_neg (by omega)]
  omega

/-- The normalized value of the endpoint `len` is `len` itself. -/
theorem pyIdx_self (len : ℕ) : pyIdx len (len : ℤ) = len := by
  rw [pyIdx, if_neg (by omega)]
  omega

/-- A slice from 0 is a `take`. -/
theorem pySlice_zero {α : Type} (xs : List α) (b : ℤ) :
    pySlice xs 0 b = xs.take (pyIdx xs.length b) := by
  rw [pySlice]
  have h0 : pyIdx xs.length 0 = 0 := by rw [pyIdx]; simp
  rw [h0, List.drop_zero]

/-- Length of a Python slice. -/
theorem length_pySlice {α : Type} (xs : List α) (a b : ℤ) :
    (pySlice xs a b).length = pyIdx xs.length b - pyIdx xs.length a := by
  rw [pySlice, List.length_drop, List.length_take]
  have := pyIdx_le xs.length b
  omega

/-- Any slice of the empty list is empty. -/
theorem pySlice_nil {α : Type} (a b : ℤ) : pySlice ([] : List α) a b = [] := by
  rw [pySlice]
  simp

/-- The windower produces `len - L` windows. -/
theorem makeWindows_length (m : List (List ℚ)) (L : ℕ) :
    (makeWindows m L).length = m.length - L := by
  simp [makeWindows]

/-- The windower produces `len - L` targets. -/
theorem makeTargets_length (m : List (List ℚ)) (L : ℕ) :
    (makeTargets m L).length = m.length - L := by
  simp [makeTargets]

/-- Window `j` is rows `[j, j + L)` of the scaled matrix. -/
theorem makeWindows_getD (m : List (List ℚ)) (L j : ℕ) (hj : j < m.length - L) :
    (makeWindows m L).getD j [] = (m.drop j).take L := by
  rw [makeWindows, List.getD_eq_getElem _ _ (by simpa using hj),
    List.getElem_map, List.getElem_range]

/-- Target `j` is column 0 of row `L + j` of the scaled matrix. -/
theorem makeTargets_getD (m : List (List ℚ)) (L j : ℕ) (hj : j < m.length - L) :
    (makeTargets m L).getD j 0 = (m.getD (L + j) []).getD 0 0 := by
  rw [makeTargets, List.getD_eq_getElem _ _ (by simpa using hj),
    List.getElem_map, List.getElem_range]

/-- A successful fit turns `prepare_data` into the assembled dictionary. -/
theorem prepare_data_eq_of_fit (data : List (List ℚ)) (L : ℕ) (t v : ℚ)
    (s : List (ℚ × ℚ))
    (hfit : fitScaler (pySlice data 0 (trainEnd data.length t)) = .ok s) :
    prepare_data data L t v = .ok (assembled data L t v s) := by
  unfold prepare_data
  rw [hfit]

/-- A failed fit propagates out of `prepare_data`. -/
theorem prepare_data_eq_of_fit_error (data : List (List ℚ)) (L : ℕ) (t v : ℚ)
    (e : String)
    (hfit : fitScaler (pySlice data 0 (trainEnd data.length t)) = .error e) :
    prepare_data data L t v = .error e := by
  unfold prepare_data
  rw [hfit]

/-- Inversion: a successful `prepare_data` call returns the assembled
dictionary of the scaler fitted on the training prefix. -/
theorem prepare_data_ok_inv (data : List (List ℚ)) (L : ℕ) (t v : ℚ)
    (pd : PreparedData) (hok : prepare_data data L t v = .ok pd) :
    ∃ s, fitScaler (pySlice data 0 (trainEnd data.length t)) = .ok s ∧
      pd = assembled data L t v s := by
  cases hfit : fitScaler (pySlice data 0 (trainEnd data.length t)) with
  | error e =>
      rw [prepare_data_eq_of_fit_error data L t v e hfit] at hok
      cases hok
  | ok s =>
      rw [prepare_data_eq_of_fit data L t v s hfit] at hok
      exact ⟨s, rfl, by injection hok with h; exact h.symm⟩

/-! ## Scaler bound lemmas -/

/-- The fitted per-column bounds cover every fitted row's entries. -/
theorem fitScaler_bounds (rows : List (List ℚ)) (s : List (ℚ × ℚ))
    (hfit : fitScaler rows = .ok s) (row : List ℚ) (hrow : row ∈ rows)
    (k : ℕ) (hk : k < s.length) :
    (s.getD k (0, 0)).1 ≤ row.getD k 0 ∧ row.getD k 0 ≤ (s.getD k (0, 0)).2 := by
  match rows with
  | [] => cases hfit
  | r :: rs =>
      have hs : s = (List.range r.length).map
          (fun j => (colMin rs j (r.getD j 0), colMax rs j (r.getD j 0))) := by
        have h2 : Except.ok (ε := String) ((List.range r.length).map
            (fun j => (colMin rs j (r.getD j 0), colMax rs j (r.getD j 0)))) = .ok s := hfit
        injection h2 with h3
        exact h3.symm
      subst hs
      have hk2 : k < r.length := by simpa using hk
      have hsk : ((List.range r.length).map
          (fun j => (colMin rs j (r.getD j 0), colMax rs j (r.getD j 0)))).getD k (0, 0)
          = (colMin rs k (r.getD k 0), colMax rs k (r.getD k 0)) := by
        rw [List.getD_eq_getElem _ _ hk, List.getElem_map, List.getElem_range]
      rw [hsk]
      rcases List.mem_cons.1 hrow with rfl | hmem
      · exact ⟨foldl_min_le_init _ _, le_foldl_max_init _ _⟩
      · constructor
        · exact foldl_min_le_mem _ _ _ (List.mem_map_of_mem _ hmem)
        · exact le_foldl_max_mem _ _ _ (List.mem_map_of_mem _ hmem)

/-- A value between the fitted bounds is transformed into `[0, 1]`, also for a
degenerate zero-range column. -/
theorem transformVal_unit (b : ℚ × ℚ) (v : ℚ) (h1 : b.1 ≤ v) (h2 : v ≤ b.2) :
    inUnit (transformVal b v) := by
  rw [transformVal, handleZeros]
  by_cases hr : b.2 - b.1 = 0
  · have hv : v = b.1 := le_antisymm (by linarith) h1
    rw [if_pos hr, hv]
    norm_num [inUnit]
  · rw [if_neg hr]
    have hpos : 0 < b.2 - b.1 := lt_of_le_of_ne (by linarith) (Ne.symm hr)
    exact ⟨div_nonneg (by linarith) (le_of_lt hpos), (div_le_one hpos).2 (by linarith)⟩

/-- A row whose entries all sit between the scaler's fitted bounds transforms
into the unit interval. -/
theorem transformRow_unit (s : List (ℚ × ℚ)) (row : List ℚ)
    (hb : ∀ k, k < s.length → k < row.length →
      (s.getD k (0, 0)).1 ≤ row.getD k 0 ∧ row.getD k 0 ≤ (s.getD k (0, 0)).2) :
    allInUnit (transformRow s row) := by
  intro x hx
  rw [transformRow] at hx
  obtain ⟨p, hp, hpx⟩ := List.mem_map.1 hx
  obtain ⟨i, hi, hpi⟩ := List.mem_iff_getElem.1 hp
  rw [List.getElem_zip] at hpi
  have his : i < s.length := by
    rw [List.length_zip] at hi
    omega
  have hir : i < row.length := by
    rw [List.length_zip] at hi
    omega
  have hbnd := hb i his hir
  rw [List.getD_eq_getElem s (0, 0) his, List.getD_eq_getElem row 0 hir] at hbnd
  rw [← hpx, ← hpi]
  exact transformVal_unit _ _ hbnd.1 hbnd.2

/-- An in-range `getD` value of a list is a member of a sufficiently long
`take` of that list. -/
theorem getD_mem_take {α : Type} (l : List α) (d : α) (i n : ℕ)
    (hi : i < n) (hl : i < l.length) : l.getD i d ∈ l.take n := by
  have h1 : i < (l.take n).length := by
    rw [List.length_take]
    omega
  have h2 : (l.take n).getD i d = l.getD i d := by
    rw [List.getD_eq_getElem _ _ h1, List.getD_eq_getElem _ _ hl]
    exact List.getElem_take ..
  rw [← h2, List.getD_eq_getElem _ _ h1]
  exact List.getElem_mem ..

/-- Every member of a `take` is an in-range `getD` value of the base list. -/
theorem mem_take_getD {α : Type} (l : List α) (d : α) (n : ℕ) (x : α)
    (hx : x ∈ l.take n) : ∃ i, i < n ∧ i < l.length ∧ l.getD i d = x := by
  obtain ⟨i, hi, hix⟩ := List.mem_iff_getElem.1 hx
  have h1 : i < n := by
    rw [List.length_take] at hi
    omega
  have h2 : i < l.length := by
    rw [List.length_take] at hi
    omega
  refine ⟨i, h1, h2, ?_⟩
  rw [List.getD_eq_getElem _ _ h2, ← hix]
  exact (List.getElem_take ..).symm

/-- Every member of a window slice `(m.drop j).take L` is the row of `m` at
some index `j + a` with `a < L`. -/
theorem mem_drop_take_getD (m : List (List ℚ)) (j L : ℕ) (r : List ℚ)
    (hr : r ∈ (m.drop j).take L) :
    ∃ a, a < L ∧ j + a < m.length ∧ m.getD (j + a) [] = r := by
  obtain ⟨a, haL, haD, hval⟩ := mem_take_getD (m.drop j) [] L r hr
  have hja : j + a < m.length := by
    rw [List.length_drop] at haD
    omega
  refine ⟨a, haL, hja, ?_⟩
  rw [← hval, List.getD_eq_getElem _ _ haD, List.getD_eq_getElem _ _ hja]
  exact (List.getElem_drop ..).symm

/-- Every scaled row whose index lies inside the fitted prefix is entirely in
the unit interval. -/
theorem scaled_row_unit (data : List (List ℚ)) (s : List (ℚ × ℚ)) (te : ℤ)
    (hfit : fitScaler (pySlice data 0 te) = .ok s)
    (hte : 0 ≤ te)
    (idx : ℕ) (hidx : idx < data.length) (hidx2 : idx < te.toNat) :
    allInUnit ((scaledMatrix s data).getD idx []) := by
  have hml : (scaledMatrix s data).length = data.length := by simp [scaledMatrix]
  have hidxm : idx < (scaledMatrix s data).length := by omega
  have hval : (scaledMatrix s data).getD idx [] = transformRow s (data.getD idx []) := by
    rw [scaledMatrix, List.getD_eq_getElem _ _ (by simpa [scaledMatrix] using hidxm),
      List.getElem_map, List.getD_eq_getElem _ _ hidx]
  rw [hval]
  apply transformRow_unit
  intro k hks hkr
  have hmem : data.getD idx [] ∈ pySlice data 0 te := by
    rw [pySlice_zero]
    apply getD_mem_take
    · rw [pyIdx, if_neg (by omega)]
      omega
    · exact hidx
  exact fitScaler_bounds _ s hfit _ hmem k hks

/-! ## Concrete evaluation lemmas -/

/-- Concrete evaluation: the scaler fitted by `prepare_data data5 1 (4/5) (1/10)`. -/
theorem fit_data5 :
    fitScaler (pySlice data5 0 (trainEnd data5.length (4/5))) = .ok [(0, 3)] := by
  norm_num [data5, trainEnd, pyTrunc, pySlice, pyIdx, fitScaler, colMin, colMax,
    List.range_succ, min_def, max_def]
  simp only [Int.reduceToNat]
  norm_num [List.range_succ, min_def, max_def]

/-- Concrete evaluation of `prepare_data` on `data5`. -/
theorem prep_data5 : prepare_data data5 1 (4/5) (1/10) = .ok pd5 := by
  rw [prepare_data_eq_of_fit data5 1 (4/5) (1/10) [(0, 3)] fit_data5]
  norm_num [assembled, data5, pd5, trainEnd, valEnd, pyTrunc, pySlice, pyIdx,
    scaledMatrix, transformRow, transformVal, handleZeros, makeWindows, makeTargets,
    List.range_succ, min_def, max_def]
  simp only [Int.reduceToNat]
  norm_num

/-- Concrete evaluation: `data5alt` has the same training prefix as `data5`,
hence the same fitted scaler. -/
theorem fit_data5alt :
    fitScaler (pySlice data5alt 0 (trainEnd data5alt.length (4/5))) = .ok [(0, 3)] := by
  norm_num [data5alt, trainEnd, pyTrunc, pySlice, pyIdx, fitScaler, colMin, colMax,
    List.range_succ, min_def, max_def]
  simp only [Int.reduceToNat]
  norm_num [List.range_succ, min_def, max_def]

/-- Concrete evaluation of `prepare_data` on `data5alt`. -/
theorem prep_data5alt : prepare_data data5alt 1 (4/5) (1/10) = .ok pd5alt := by
  rw [prepare_data_eq_of_fit data5alt 1 (4/5) (1/10) [(0, 3)] fit_data5alt]
  norm_num [assembled, data5alt, pd5alt, trainEnd, valEnd, pyTrunc, pySlice, pyIdx,
    scaledMatrix, transformRow, transformVal, handleZeros, makeWindows, makeTargets,
    List.range_succ, min_def, max_def]
  simp only [Int.reduceToNat]
  norm_num

/-- Concrete evaluation: the scaler fitted by `prepare_data data5 1 (7/10) (3/20)`. -/
theorem fit_data5_b :
    fitScaler (pySlice data5 0 (trainEnd data5.length (7/10))) = .ok [(0, 2)] := by
  norm_num [data5, trainEnd, pyTrunc, pySlice, pyIdx, fitScaler, colMin, colMax,
    List.range_succ, min_def, max_def]
  simp only [Int.reduceToNat]
  norm_num [List.range_succ, min_def, max_def]

/-- Concrete evaluation of `prepare_data` on `data5` with the 70/15 split. -/
theorem prep_data5_b : prepare_data data5 1 (7/10) (3/20) = .ok pd5b := by
  rw [prepare_data_eq_of_fit data5 1 (7/10) (3/20) [(0, 2)] fit_data5_b]
  norm_num [assembled, data5, pd5b, trainEnd, valEnd, pyTrunc, pySlice, pyIdx,
    scaledMatrix, transformRow, transformVal, handleZeros, makeWindows, makeTargets,
    List.range_succ, min_def, max_def]
  simp only [Int.reduceToNat]
  norm_num

/-- Concrete evaluation: the scaler fitted by `prepare_data data3 5 (7/10) (3/20)`. -/
theorem fit_data3 :
    fitScaler (pySlice data3 0 (trainEnd data3.length (7/10))) = .ok [(0, 1)] := by
  norm_num [data3, trainEnd, pyTrunc, pySlice, pyIdx, fitScaler, colMin, colMax,
    List.range_succ, min_def, max_def]
  simp only [Int.reduceToNat]
  norm_num [List.range_succ, min_def, max_def]

/-- Concrete evaluation of `prepare_data` on the 3-row matrix with lookback 5. -/
theorem prep_data3 : prepare_data data3 5 (7/10) (3/20) = .ok pd3 := by
  rw [prepare_data_eq_of_fit data3 5 (7/10) (3/20) [(0, 1)] fit_data3]
  norm_num [assembled, data3, pd3, trainEnd, valEnd, pyTrunc, pySlice, pyIdx,
    scaledMatrix, transformRow, transformVal, handleZeros, makeWindows, makeTargets,
    List.range_succ, min_def, max_def]

/-- Concrete evaluation: the scaler fitted by `prepare_data data20 10 (1/4) (7/20)`. -/
theorem fit_data20 :
    fitScaler (pySlice data20 0 (trainEnd data20.length (1/4))) = .ok [(0, 4)] := by
  norm_num [data20, trainEnd, pyTrunc, pySlice, pyIdx, fitScaler, colMin, colMax,
    List.range_succ, min_def, max_def]
  simp only [Int.reduceToNat]
  norm_num [List.range_succ, min_def, max_def]

end StockPredictor
namespace StockPredictor

/-! ## Claim theorems -/

/-- Claim C1: in `prepare_data` the Scaler is fitted exactly once, on exactly
the FeatureMatrix rows `[0, train_end)`, and that same fitted Scaler is
applied without refitting to every row (the six output arrays are slices of
the windows built over `scaledMatrix pd.scaler data`, the whole series
transformed with the one scaler); no row at index `≥ train_end` enters the
fitted bounds — any second input agreeing with `data` on the training prefix
yields the identical scaler. -/
theorem scaler_fit_once (data dataB : List (List ℚ)) (L : ℕ) (t v : ℚ)
    (pd pdB : PreparedData)
    (hok : prepare_data data L t v = .ok pd)
    (hokB : prepare_data dataB L t v = .ok pdB)
    (hlen : dataB.length = data.length)
    (hpref : pySlice dataB 0 (trainEnd data.length t)
      = pySlice data 0 (trainEnd data.length t)) :
    fitScaler (pySlice data 0 (trainEnd data.length t)) = .ok pd.scaler ∧
    pdB.scaler = pd.scaler ∧
    pd = assembled data L t v pd.scaler := by
  obtain ⟨s, hfit, rfl⟩ := prepare_data_ok_inv data L t v pd hok
  obtain ⟨sB, hfitB, rfl⟩ := prepare_data_ok_inv dataB L t v pdB hokB
  have hs : (assembled data L t v s).scaler = s := rfl
  have hsB : (assembled dataB L t v sB).scaler = sB := rfl
  rw [hlen, hpref] at hfitB
  rw [hs, hsB]
  rw [hfit] at hfitB
  have hss : sB = s := by injection hfitB with h; exact h.symm
  exact ⟨by rw [hfit], by rw [hss], rfl⟩

/-- Claim C1 witness: instantiation at `data5` and `data5alt` (which differ
only in a test-period row) with lookback 1 and ratios 4/5, 1/10. -/
theorem scaler_fit_once_witness :
    fitScaler (pySlice data5 0 (trainEnd data5.length (4/5))) = .ok pd5.scaler ∧
    pd5alt.scaler = pd5.scaler ∧
    pd5 = assembled data5 1 (4/5) (1/10) pd5.scaler :=
  scaler_fit_once data5 data5alt 1 (4/5) (1/10) pd5 pd5alt prep_data5 prep_data5alt
    (by norm_num [data5, data5alt])
    (by norm_num [data5, data5alt, trainEnd, pyTrunc, pySlice, pyIdx, min_def]
        ;  simp only [Int.reduceToNat]
        ;  norm_num)

/-- Claim C2: for a FeatureMatrix of length `N` scaled by any scaler and a
lookback `L` with `0 < L < N`, the windowing step produces exactly `N - L`
windows; for every prediction index `i` with `L ≤ i < N`, window `i - L` has
length `L`, its row `a` is scaled row `i - L + a` (so the window is rows
`[i-L, i)` in FeatureMatrix column order), and its target is column 0 (close)
of scaled row `i`. -/
theorem windower_count_content (data : List (List ℚ)) (s : List (ℚ × ℚ)) (L i a : ℕ)
    (hL : 0 < L) (hLN : L < data.length) (hiL : L ≤ i) (hiN : i < data.length)
    (ha : a < L) :
    (makeWindows (scaledMatrix s data) L).length = data.length - L ∧
    ((makeWindows (scaledMatrix s data) L).getD (i - L) []).length = L ∧
    ((makeWindows (scaledMatrix s data) L).getD (i - L) []).getD a []
      = (scaledMatrix s data).getD (i - L + a) [] ∧
    (makeTargets (scaledMatrix s data) L).getD (i - L) 0
      = ((scaledMatrix s data).getD i []).getD 0 0 := by
  have hmlen : (scaledMatrix s data).length = data.length := by simp [scaledMatrix]
  have hj : i - L < (scaledMatrix s data).length - L := by omega
  refine ⟨by rw [makeWindows_length, hmlen], ?_, ?_, ?_⟩
  · rw [makeWindows_getD _ L (i - L) hj, List.length_take, List.length_drop]
    omega
  · rw [makeWindows_getD _ L (i - L) hj]
    have h1 : a < (((scaledMatrix s data).drop (i - L)).take L).length := by
      rw [List.length_take, List.length_drop]
      omega
    rw [List.getD_eq_getElem _ _ h1, List.getElem_take, List.getElem_drop,
      List.getD_eq_getElem _ _ (by omega)]
  · rw [makeTargets_getD _ L (i - L) hj]
    have hLi : L + (i - L) = i := by omega
    rw [hLi]

/-- Claim C2 witness: instantiation at `data5` (N = 5) with lookback 2,
prediction index 2 and window row 1. -/
theorem windower_count_content_witness :
    (makeWindows (scaledMatrix [(0, 1)] data5) 2).length = data5.length - 2 ∧
    ((makeWindows (scaledMatrix [(0, 1)] data5) 2).getD (2 - 2) []).length = 2 ∧
    ((makeWindows (scaledMatrix [(0, 1)] data5) 2).getD (2 - 2) []).getD 1 []
      = (scaledMatrix [(0, 1)] data5).getD (2 - 2 + 1) [] ∧
    (makeTargets (scaledMatrix [(0, 1)] data5) 2).getD (2 - 2) 0
      = ((scaledMatrix [(0, 1)] data5).getD 2 []).getD 0 0 :=
  windower_count_content data5 [(0, 1)] 2 2 1 (by norm_num) (by norm_num [data5])
    (by norm_num) (by norm_num [data5]) (by norm_num)

/-- Claim C3 counterexample: with 20 rows, `train_ratio = 1/4`,
`val_ratio = 7/20` (both in `(0,1)`, sum `3/5 < 1`) and lookback 10, the
boundaries are `train_end = 5`, `val_end = 12`; the lookback-shifted start
`5 - 10 = -5` is negative, Python slicing counts it from the end, and the
split sizes are 5, 0 and 8, summing to 13, not to `N - L = 10` as the claim
states. -/
theorem split_sum_counterexample :
    splitLengths (prepare_data data20 10 (1/4) (7/20)) = some (5, 0, 8) ∧
    5 + 0 + 8 ≠ 20 - 10 := by
  refine ⟨?_, by norm_num⟩
  rw [prepare_data_eq_of_fit data20 10 (1/4) (7/20) [(0, 4)] fit_data20]
  have hlen : data20.length = 20 := by norm_num [data20]
  have hW : (makeWindows (scaledMatrix [(0, 4)] data20) 10).length = 10 := by
    rw [makeWindows_length]
    simp [scaledMatrix, hlen]
  have hy : (makeTargets (scaledMatrix [(0, 4)] data20) 10).length = 10 := by
    rw [makeTargets_length]
    simp [scaledMatrix, hlen]
  have hte : trainEnd data20.length (1/4) = 5 := by
    rw [hlen]
    norm_num [trainEnd, pyTrunc]
  have hve : valEnd data20.length (1/4) (7/20) = 12 := by
    rw [hlen]
    norm_num [valEnd, pyTrunc]
  simp only [splitLengths, Except.toOption, Option.map, assembled,
    length_pySlice, hW, hy, hte, hve]
  norm_num [pyIdx]
  omega

/-- Claim C3 amended: the boundaries equal `⌊N * train_ratio⌋` and
`⌊N * (train_ratio + val_ratio)⌋` and satisfy
`0 ≤ train_end ≤ val_end ≤ N`; the three window counts sum to the windowed
total `N - L` provided additionally `lookback ≤ train_end` (when
`train_end < lookback` the negative shifted boundary makes Python slicing
wrap around and the sum property fails, as the counterexample shows). -/
theorem splitter_boundaries (data : List (List ℚ)) (L : ℕ) (t v : ℚ)
    (pd : PreparedData)
    (ht0 : 0 < t) (ht1 : t < 1) (hv0 : 0 < v) (hsum : t + v < 1)
    (hok : prepare_data data L t v = .ok pd) :
    trainEnd data.length t = ⌊(data.length : ℚ) * t⌋ ∧
    valEnd data.length t v = ⌊(data.length : ℚ) * (t + v)⌋ ∧
    0 ≤ trainEnd data.length t ∧
    trainEnd data.length t ≤ valEnd data.length t v ∧
    valEnd data.length t v ≤ (data.length : ℤ) ∧
    ((L : ℤ) ≤ trainEnd data.length t →
      pd.X_train.length + pd.X_val.length + pd.X_test.length = data.length - L ∧
      pd.y_train.length + pd.y_val.length + pd.y_test.length = data.length - L) := by
  have hnt : (0 : ℚ) ≤ (data.length : ℚ) * t :=
    mul_nonneg (Nat.cast_nonneg _) (le_of_lt ht0)
  have hntv : (0 : ℚ) ≤ (data.length : ℚ) * (t + v) :=
    mul_nonneg (Nat.cast_nonneg _) (by linarith)
  have hte : trainEnd data.length t = ⌊(data.length : ℚ) * t⌋ := by
    rw [trainEnd, pyTrunc, if_neg (by push_neg; exact hnt)]
  have hve : valEnd data.length t v = ⌊(data.length : ℚ) * (t + v)⌋ := by
    rw [valEnd, pyTrunc, if_neg (by push_neg; exact hntv)]
  have hte0 : 0 ≤ trainEnd data.length t := by
    rw [hte]
    exact Int.floor_nonneg.2 hnt
  have htev : trainEnd data.length t ≤ valEnd data.length t v := by
    rw [hte, hve]
    exact Int.floor_le_floor (mul_le_mul_of_nonneg_left (by linarith) (Nat.cast_nonneg _))
  have hven : valEnd data.length t v ≤ (data.length : ℤ) := by
    rw [hve]
    calc ⌊(data.length : ℚ) * (t + v)⌋ ≤ ⌊((data.length : ℕ) : ℚ)⌋ :=
          Int.floor_le_floor (by nlinarith [Nat.cast_nonneg (α := ℚ) data.length])
      _ = (data.length : ℤ) := Int.floor_natCast _
  refine ⟨hte, hve, hte0, htev, hven, ?_⟩
  intro hLte
  obtain ⟨s, hfit, rfl⟩ := prepare_data_ok_inv data L t v pd hok
  have hmlen : (scaledMatrix s data).length = data.length := by simp [scaledMatrix]
  have hWlen : (makeWindows (scaledMatrix s data) L).length = data.length - L := by
    rw [makeWindows_length, hmlen]
  have hylen : (makeTargets (scaledMatrix s data) L).length = data.length - L := by
    rw [makeTargets_length, hmlen]
  have hts0 : (0 : ℤ) ≤ trainEnd data.length t - L := by omega
  have htsvs : trainEnd data.length t - L ≤ valEnd data.length t v - L := by omega
  have hmono := pyIdx_mono (data.length - L) hts0 htsvs
  have hb1 := pyIdx_le (data.length - L) (trainEnd data.length t - L)
  have hb2 := pyIdx_le (data.length - L) (valEnd data.length t v - L)
  constructor
  · show (pySlice (makeWindows (scaledMatrix s data) L) 0 _).length
        + (pySlice (makeWindows (scaledMatrix s data) L) _ _).length
        + (pySlice (makeWindows (scaledMatrix s data) L) _ _).length = _
    rw [length_pySlice, length_pySlice, length_pySlice, hWlen, pyIdx_self]
    have h0 : pyIdx (data.length - L) 0 = 0 := by rw [pyIdx]; simp
    rw [h0]
    omega
  · show (pySlice (makeTargets (scaledMatrix s data) L) 0 _).length
        + (pySlice (makeTargets (scaledMatrix s data) L) _ _).length
        + (pySlice (makeTargets (scaledMatrix s data) L) _ _).length = _
    rw [length_pySlice, length_pySlice, length_pySlice, hylen, pyIdx_self]
    have h0 : pyIdx (data.length - L) 0 = 0 := by rw [pyIdx]; simp
    rw [h0]
    omega

/-- Claim C3 witness: instantiation at `data5` (N = 5), lookback 1,
ratios 7/10 and 3/20, where `train_end = 3 ≥ 1` and the counts 2, 1, 1 sum
to `5 - 1 = 4`. -/
theorem splitter_boundaries_witness :
    trainEnd data5.length (7/10) = ⌊(data5.length : ℚ) * (7/10)⌋ ∧
    valEnd data5.length (7/10) (3/20) = ⌊(data5.length : ℚ) * (7/10 + 3/20)⌋ ∧
    0 ≤ trainEnd data5.length (7/10) ∧
    trainEnd data5.length (7/10) ≤ valEnd data5.length (7/10) (3/20) ∧
    valEnd data5.length (7/10) (3/20) ≤ (data5.length : ℤ) ∧
    ((1 : ℤ) ≤ trainEnd data5.length (7/10) →
      pd5b.X_train.length + pd5b.X_val.length + pd5b.X_test.length = data5.length - 1 ∧
      pd5b.y_train.length + pd5b.y_val.length + pd5b.y_test.length = data5.length - 1) :=
  splitter_boundaries data5 1 (7/10) (3/20) pd5b (by norm_num) (by norm_num)
    (by norm_num) (by norm_num) prep_data5_b

/-- Claim C4 counterexample: on a flat 14-bar close series the trailing
average loss at row 13 is 0, but the average gain is also 0, so
`rs = 0/0` is NaN and `RSI_14` is NaN (`none`), not the numeric value 100
the claim requires for every row with `avg_loss = 0`. -/
theorem rsi_flat_is_nan :
    avgLoss closeFlat 13 = some 0 ∧ rsi closeFlat 13 = none := by
  have hl : avgLoss closeFlat 13 = some 0 := by
    norm_num [avgLoss, loss, closeFlat, List.range_succ]
  have hg : avgGain closeFlat 13 = some 0 := by
    norm_num [avgGain, gain, closeFlat, List.range_succ]
  refine ⟨hl, ?_⟩
  simp [rsi, hl, hg]

/-- Claim C4 amended: past the RSI warm-up, at every row where the trailing
average loss is 0 and the trailing average gain is nonzero, `RSI_14` is the
deterministic numeric value 100 (the IEEE evaluation of
`100 - 100/(1 + avg_gain/0)`); when the average gain is also 0 the value is
NaN instead (see the counterexample). -/
theorem rsi_zero_loss_pos_gain (close : List ℚ) (i : ℕ) (ag : ℚ)
    (hl : avgLoss close i = some 0) (hg : avgGain close i = some ag) (hag : ag ≠ 0) :
    rsi close i = some 100 := by
  simp only [rsi, hl, hg]
  simp [hag]

/-- Claim C4 witness: on a strictly increasing 14-bar close series the
average loss at row 13 is 0, the average gain is 13/14, and `RSI_14` is 100. -/
theorem rsi_zero_loss_pos_gain_witness : rsi closeInc 13 = some 100 :=
  rsi_zero_loss_pos_gain closeInc 13 (13/14)
    (by norm_num [avgLoss, loss, closeInc, List.range_succ])
    (by norm_num [avgGain, gain, closeInc, List.range_succ])
    (by norm_num)

/-- Claim C5: for any fitted column bounds `(min, max)` and any value `v`
within the fitted range, the inverse transform used for reporting
(`u * (max - min) + min`) exactly inverts the min-max transform. -/
theorem scaler_roundtrip (b : ℚ × ℚ) (v : ℚ) (h1 : b.1 ≤ v) (h2 : v ≤ b.2) :
    inverseTransformVal b (transformVal b v) = v := by
  unfold inverseTransformVal transformVal handleZeros
  by_cases hr : b.2 - b.1 = 0
  · have hv : v = b.1 := le_antisymm (by linarith) h1
    simp [hr, hv]
  · rw [if_neg hr, div_mul_cancel₀ _ hr]
    ring

/-- Claim C5 witness: round trip at bounds `(1, 3)` and value 2. -/
theorem scaler_roundtrip_witness :
    inverseTransformVal (1, 3) (transformVal (1, 3) 2) = 2 :=
  scaler_roundtrip (1, 3) 2 (by norm_num) (by norm_num)

/-- Claim C6: for every target sequence of length at least 2,
`naive_baseline` returns the mean of the absolute consecutive differences
(`mean(|targets[1:] - targets[:-1]|)`, the spec-side formula
`specNaiveBaseline`); in particular it returns exactly 2.75 = 11/4 on
`[100, 102, 105, 103, 107]` and 0 on every constant sequence of length at
least 2. -/
theorem naive_baseline_correct (y : List ℚ) (c : ℚ) (n : ℕ)
    (hy : 2 ≤ y.length) (hn : 2 ≤ n) :
    naive_baseline y = some (specNaiveBaseline y) ∧
    naive_baseline [(100 : ℚ), 102, 105, 103, 107] = some (11/4) ∧
    naive_baseline (List.replicate n c) = some 0 := by
  refine ⟨?_, ?_, ?_⟩
  · have hlen : (baselineDiffs y).length = y.length - 1 := by
      simp only [baselineDiffs, List.length_map, List.length_zip, List.length_tail]
      omega
    have hne : (baselineDiffs y).length ≠ 0 := by omega
    have hswap : ((y.tail.zip y).map (fun p => |p.1 - p.2|)) = baselineDiffs y := by
      rw [baselineDiffs, ← List.zip_swap y y.tail, List.map_map]
      rfl
    rw [naive_baseline, if_neg hne, specNaiveBaseline, hswap, hlen]
  · norm_num [naive_baseline, baselineDiffs]
  · obtain ⟨m, rfl⟩ : ∃ m, n = m + 1 := ⟨n - 1, by omega⟩
    have hdiffs : baselineDiffs (List.replicate (m + 1) c) = List.replicate m 0 := by
      rw [baselineDiffs, List.tail_replicate, Nat.add_sub_cancel, zip_replicate_self]
      simp
    have hm : m ≠ 0 := by omega
    rw [naive_baseline, hdiffs]
    simp [hm, List.sum_replicate]

/-- Claim C6 witness: instantiation at `[0, 1]` and the constant sequence of
two 7s. -/
theorem naive_baseline_correct_witness :
    naive_baseline [(0 : ℚ), 1] = some (specNaiveBaseline [(0 : ℚ), 1]) ∧
    naive_baseline [(100 : ℚ), 102, 105, 103, 107] = some (11/4) ∧
    naive_baseline (List.replicate 2 (7 : ℚ)) = some 0 :=
  naive_baseline_correct [(0 : ℚ), 1] 7 2 (by norm_num) (by norm_num)

/-- Claim C7 counterexample: `MinMaxScaler.fit` on a prefix whose only column
is constant (fewer than 2 distinct values) succeeds with bounds
`(min, max) = (5, 5)` instead of failing, and the subsequent transform is
defined (the zero range is replaced by 1, mapping the value to 0). -/
theorem fitScaler_degenerate_succeeds :
    fitScaler [[(5 : ℚ)], [5], [5]] = .ok [(5, 5)] ∧
    transformVal ((5 : ℚ), 5) 5 = 0 := by
  constructor
  · norm_num [fitScaler, colMin, colMax, List.range_succ]
  · norm_num [transformVal, handleZeros]

/-- Claim C7 amended: the Normalizer's fit succeeds on every nonempty prefix,
including degenerate ones with a zero-range column; on such a column it
records `min = max` and the transform divides by the replaced range 1,
mapping each value `v` to `v - min` — no configuration error is raised. -/
theorem fitScaler_no_degenerate_check (r : List ℚ) (rs : List (List ℚ)) (c v : ℚ)
    (n : ℕ) (hn : 1 ≤ n) :
    (∃ s, fitScaler (r :: rs) = .ok s) ∧
    fitScaler (List.replicate n [c]) = .ok [(c, c)] ∧
    transformVal (c, c) v = v - c := by
  refine ⟨⟨_, rfl⟩, ?_, ?_⟩
  · obtain ⟨m, rfl⟩ : ∃ m, n = m + 1 := ⟨n - 1, by omega⟩
    rw [List.replicate_succ]
    show fitScaler ([c] :: List.replicate m [c]) = _
    simp [fitScaler, colMin, colMax, List.map_replicate, List.range_succ,
          foldl_min_self_replicate, foldl_max_self_replicate]
  · simp [transformVal, handleZeros]

/-- Claim C7 witness: instantiation at a three-row constant prefix with
value 5, transforming the out-of-range value 7 to 2. -/
theorem fitScaler_no_degenerate_check_witness :
    (∃ s, fitScaler ([(5 : ℚ)] :: [[5], [5]]) = .ok s) ∧
    fitScaler (List.replicate 3 [(5 : ℚ)]) = .ok [(5, 5)] ∧
    transformVal ((5 : ℚ), 5) 7 = 2 := by
  have h := fitScaler_no_degenerate_check [(5 : ℚ)] [[5], [5]] 5 7 3 (by norm_num)
  exact ⟨h.1, h.2.1, by rw [h.2.2]; norm_num⟩

/-- Claim C8 counterexample: with 3 rows and lookback 5 (`L ≥ N`),
`prepare_data` raises no configuration error: it succeeds and every split is
empty (`splitLengths` is `some`, not `none`). -/
theorem lookback_ge_no_error :
    splitLengths (prepare_data data3 5 (7/10) (3/20)) = some (0, 0, 0) := by
  rw [prep_data3]
  simp [splitLengths, Except.toOption, pd3]

/-- Claim C8 amended: for `L ≥ N` the windowing step raises no error; the
window range is empty, so every split of a successful `prepare_data` call is
the empty sequence. -/
theorem windower_empty_when_lookback_ge (data : List (List ℚ)) (L : ℕ) (t v : ℚ)
    (pd : PreparedData)
    (hL : data.length ≤ L) (hok : prepare_data data L t v = .ok pd) :
    pd.X_train = [] ∧ pd.X_val = [] ∧ pd.X_test = [] ∧
    pd.y_train = [] ∧ pd.y_val = [] ∧ pd.y_test = [] := by
  obtain ⟨s, hfit, rfl⟩ := prepare_data_ok_inv data L t v pd hok
  have hmlen : (scaledMatrix s data).length = data.length := by simp [scaledMatrix]
  have hW : makeWindows (scaledMatrix s data) L = [] := by
    rw [makeWindows, hmlen, Nat.sub_eq_zero_of_le hL]
    rfl
  have hy : makeTargets (scaledMatrix s data) L = [] := by
    rw [makeTargets, hmlen, Nat.sub_eq_zero_of_le hL]
    rfl
  show pySlice (makeWindows (scaledMatrix s data) L) 0 _ = [] ∧
    pySlice (makeWindows (scaledMatrix s data) L) _ _ = [] ∧
    pySlice (makeWindows (scaledMatrix s data) L) _ _ = [] ∧
    pySlice (makeTargets (scaledMatrix s data) L) 0 _ = [] ∧
    pySlice (makeTargets (scaledMatrix s data) L) _ _ = [] ∧
    pySlice (makeTargets (scaledMatrix s data) L) _ _ = []
  rw [hW, hy]
  exact ⟨pySlice_nil _ _, pySlice_nil _ _, pySlice_nil _ _,
    pySlice_nil _ _, pySlice_nil _ _, pySlice_nil _ _⟩

/-- Claim C8 witness: instantiation at the 3-row matrix with lookback 5. -/
theorem windower_empty_witness :
    pd3.X_train = [] ∧ pd3.X_val = [] ∧ pd3.X_test = [] ∧
    pd3.y_train = [] ∧ pd3.y_val = [] ∧ pd3.y_test = [] :=
  windower_empty_when_lookback_ge data3 5 (7/10) (3/20) pd3
    (by norm_num [data3]) prep_data3

/-- Claim C9 counterexample: on the singleton sequence `[100]` the difference
array is empty, `np.mean([])` is NaN, and `naive_baseline` returns that NaN
(`none`) — it neither fails nor returns 0, contradicting the claim that no
non-numeric value is ever returned. -/
theorem naive_baseline_singleton_nan : naive_baseline [(100 : ℚ)] = none := rfl

/-- Claim C9 amended: for every target sequence of length below 2,
`naive_baseline` raises nothing and returns the non-numeric NaN placeholder
(`none`), never 0 and never any numeric value. -/
theorem naive_baseline_short_is_nan (y : List ℚ) (h : y.length < 2) :
    naive_baseline y = none := by
  match y with
  | [] => rfl
  | [a] => rfl
  | a :: b :: l =>
      simp only [List.length_cons] at h
      omega

/-- Claim C9 witness: instantiation at the singleton `[5]`. -/
theorem naive_baseline_short_witness : naive_baseline [(5 : ℚ)] = none :=
  naive_baseline_short_is_nan [(5 : ℚ)] (by norm_num)

/-- Claim C10: in every successful `prepare_data` call with
`train_end > lookback`, every entry of the returned train windows and train
targets lies in `[0, 1]`: train windows and targets are drawn only from rows
strictly below `train_end`, the exact slice the per-column bounds were fitted
on, so the min-max transform cannot leave the unit interval there. -/
theorem train_split_in_unit (data : List (List ℚ)) (L : ℕ) (t v : ℚ)
    (pd : PreparedData)
    (hok : prepare_data data L t v = .ok pd)
    (hL : (L : ℤ) < trainEnd data.length t) :
    matrixInUnit pd.X_train ∧ allInUnit pd.y_train := by
  obtain ⟨s, hfit, rfl⟩ := prepare_data_ok_inv data L t v pd hok
  have hte0 : 0 ≤ trainEnd data.length t := by omega
  have hml : (scaledMatrix s data).length = data.length := by simp [scaledMatrix]
  constructor
  · intro w hw r hr
    have hXtr : (assembled data L t v s).X_train
        = (makeWindows (scaledMatrix s data) L).take
            (pyIdx (makeWindows (scaledMatrix s data) L).length
              (trainEnd data.length t - L)) := by
      show pySlice (makeWindows (scaledMatrix s data) L) 0 (trainEnd data.length t - L) = _
      exact pySlice_zero _ _
    rw [hXtr] at hw
    obtain ⟨j, hjp, hjlen, hwj⟩ :=
      mem_take_getD (makeWindows (scaledMatrix s data) L) [] _ w hw
    have hjW : j < (scaledMatrix s data).length - L := by
      rw [makeWindows_length] at hjlen
      exact hjlen
    have hwval : w = ((scaledMatrix s data).drop j).take L := by
      rw [← hwj, makeWindows_getD _ _ _ hjW]
    rw [hwval] at hr
    obtain ⟨a, haL, hja, hrval⟩ := mem_drop_take_getD (scaledMatrix s data) j L r hr
    have hjate : j + a < (trainEnd data.length t).toNat := by
      have hp := pyIdx_le_toNat (makeWindows (scaledMatrix s data) L).length
        (a := trainEnd data.length t - L) (by omega)
      omega
    rw [← hrval]
    exact scaled_row_unit data s (trainEnd data.length t) hfit hte0 (j + a)
      (by omega) hjate
  · intro x hx
    have hytr : (assembled data L t v s).y_train
        = (makeTargets (scaledMatrix s data) L).take
            (pyIdx (makeTargets (scaledMatrix s data) L).length
              (trainEnd data.length t - L)) := by
      show pySlice (makeTargets (scaledMatrix s data) L) 0 (trainEnd data.length t - L) = _
      exact pySlice_zero _ _
    rw [hytr] at hx
    obtain ⟨j, hjp, hjlen, hxj⟩ :=
      mem_take_getD (makeTargets (scaledMatrix s data) L) 0 _ x hx
    have hjW : j < (scaledMatrix s data).length - L := by
      rw [makeTargets_length] at hjlen
      exact hjlen
    have hxval : x = ((scaledMatrix s data).getD (L + j) []).getD 0 0 := by
      rw [← hxj, makeTargets_getD _ _ _ hjW]
    have hLj : L + j < (scaledMatrix s data).length := by omega
    have hLjte : L + j < (trainEnd data.length t).toNat := by
      have hp := pyIdx_le_toNat (makeTargets (scaledMatrix s data) L).length
        (a := trainEnd data.length t - L) (by omega)
      omega
    have hrow := scaled_row_unit data s (trainEnd data.length t) hfit hte0 (L + j)
      (by omega) hLjte
    rw [hxval]
    by_cases h0 : 0 < ((scaledMatrix s data).getD (L + j) []).length
    · rw [List.getD_eq_getElem _ _ h0]
      exact hrow _ (List.getElem_mem ..)
    · have hnil : (scaledMatrix s data).getD (L + j) [] = [] := by
        cases hc : (scaledMatrix s data).getD (L + j) [] with
        | nil => rfl
        | cons hd tl =>
            rw [hc] at h0
            simp at h0
      rw [hnil]
      exact ⟨le_refl 0, by norm_num⟩

/-- Claim C10 witness: instantiation at `data5` with lookback 1 and ratio 4/5
(`train_end = 4 > 1`). -/
theorem train_split_in_unit_witness :
    matrixInUnit pd5.X_train ∧ allInUnit pd5.y_train :=
  train_split_in_unit data5 1 (4/5) (1/10) pd5 prep_data5
    (by norm_num [data5, trainEnd, pyTrunc])

end StockPredictor
